import Mathlib

/-!
Verification of the data_analysis repository's asynchronous workflow
orchestrator, execution adapter, sandbox protocol and path validation.

The Python sources are shallowly embedded:
* dictionaries keyed by session id become association lists
  (`List (String × α)`) with Python-`dict` semantics (`assocLookup`,
  `assocInsert`, `assocErase`);
* `queue.Queue` becomes a FIFO `List` (put appends, `get_nowait` pops the
  head);
* character-level string processing (escape decoding, `str.strip`,
  substring tests) is done on `List Char`, matching Python `str`
  left-to-right scanning semantics;
* background threads are represented by their observable `is_alive` bit;
  the bounded `join` in `cleanup_session` is represented by the boolean
  outcome "still alive after the wait".

Entity dataclasses (`DataThread`, `Task`, `Review`) are absent from the
provided sources (only their import sites exist); their record structure is
modelled from the spec, §3.
-/

namespace DataAnalysis

/-! ### Generic association-list helpers (Python `dict` semantics) -/

/-- `dict.get k` — first binding for `k`, if any. -/
def assocLookup {α : Type} (m : List (String × α)) (k : String) : Option α :=
  match m with
  | [] => none
  | (k', v) :: rest => if k' = k then some v else assocLookup rest k

/-- `dict[k] = v` — replace in place if present, else append. -/
def assocInsert {α : Type} (m : List (String × α)) (k : String) (v : α) :
    List (String × α) :=
  match m with
  | [] => [(k, v)]
  | (k', v') :: rest =>
    if k' = k then (k, v) :: rest else (k', v') :: assocInsert rest k v

/-- `del dict[k]` — remove the binding for `k`. -/
def assocErase {α : Type} (m : List (String × α)) (k : String) :
    List (String × α) :=
  m.filter (fun p => p.1 ≠ k)

/-! ### Character-level string operations (Python `str` semantics)

Python strings are embedded as `List Char` wherever character-level
behaviour matters (escape decoding in the sandbox protocol, `"".join`,
`str.strip`, substring membership). -/

/-- Boolean "is a prefix of" on character lists. -/
def isPrefixOfB : List Char → List Char → Bool
  | [], _ => true
  | _ :: _, [] => false
  | a :: ps, b :: xs => a == b && isPrefixOfB ps xs

/-- Python `pat in s`: `pat` occurs as a contiguous subsequence of `s`. -/
def containsSeq (pat : List Char) : List Char → Bool
  | [] => isPrefixOfB pat []
  | x :: rest => isPrefixOfB pat (x :: rest) || containsSeq pat rest

/-- Python whitespace as removed by `str.strip()`. -/
def isPySpace (c : Char) : Bool :=
  c == ' ' || c == '\t' || c == '\n' || c == '\r' ||
    c == '\x0b' || c == '\x0c'

/-- Python `str.strip()`: drop whitespace from both ends. -/
def pyStrip (s : List Char) : List Char :=
  ((s.dropWhile isPySpace).reverse.dropWhile isPySpace).reverse

/-- Python `"".join(parts)`. -/
def pyJoin (parts : List (List Char)) : List Char :=
  parts.foldr (· ++ ·) []

/-- Python `s.replace("\\" + c, r)` for a two-character pattern
`backslash, c` and a one-character replacement `r`: scan left to right,
non-overlapping. -/
def replaceBS (c r : Char) : List Char → List Char
  | [] => []
  | [x] => [x]
  | x :: y :: rest =>
    if x == '\\' && y == c then r :: replaceBS c r rest
    else x :: replaceBS c r (y :: rest)

/-! ### Sandbox escape-sequence normalization
(`src/infrastructure/repositories/jupyter_sandbox_repository.py`,
`JupyterSandboxRepository.execute_code`, lines 235–265)

`execute_code` decodes literal escape sequences
(`code.replace("\\n", "\n").replace("\\t", "\t").replace("\\r", "\r")`)
inside a `try`, falling back to the original code string if the decode
step raises, and passes the outcome to `_execute_code_internal`. -/

/-- The decode step of `execute_code`: the chained Python `str.replace`
calls, in source order `\\n`, then `\\t`, then `\\r`. -/
def decodeEscapeSequences (code : List Char) : List Char :=
  replaceBS 'r' '\r' (replaceBS 't' '\t' (replaceBS 'n' '\n' code))

/-- The `try/except` around the decode step: on success the decoded code is
executed, on an exception the original string is executed unchanged. -/
def executedCodeWith (decode : List Char → Except String (List Char))
    (code : List Char) : List Char :=
  match decode code with
  | Except.ok d => d
  | Except.error _ => code

/-- The code string `execute_code` actually hands to
`_execute_code_internal`: the chained replaces never raise, so the decoded
string is used. -/
def sandboxExecutedCode (code : List Char) : List Char :=
  executedCodeWith (fun c => Except.ok (decodeEscapeSequences c)) code

/-! ### Domain entities

`src/domain/entities/data_thread.py`, `plan.py` and `review.py` are not in
the provided sources (only `__init__.py` imports them), so the records are
modelled from the spec. -/

/-- One normalized result entry, `{"type": "image"|"text", "data": ...}`. -/
structure ResultEntry where
  rtype : String
  data : String
  deriving DecidableEq, Repr

/-- Modelled from the spec: `DataThread` (spec §3) — the execution record
produced by the Execution Adapter; `observation` is absent until a review
step sets it and `pathes` (artifact paths grouped by kind) starts empty,
matching the construction site in
`ExecuteCodeUseCase._convert_to_data_thread`, which passes neither. -/
structure DataThread where
  id : Nat
  process_id : String
  thread_id : Nat
  user_request : Option String
  code : List Char
  error : Option (List Char)
  stderr : List Char
  stdout : List Char
  results : List ResultEntry
  observation : Option String
  pathes : List (String × List String)
  deriving DecidableEq, Repr

/-- Modelled from the spec: one planned `Task` (spec §3) with the four
fields used by `_run_analysis_job` (hypothesis, purpose, description,
chart type). -/
structure PlanTask where
  hypothesis : String
  purpose : String
  description : String
  chart_type : String
  deriving DecidableEq, Repr

/-! ### Execution adapter
(`src/application/use_cases/execute_code.py`,
`ExecuteCodeUseCase._convert_to_data_thread` lines 91–144 and
`_convert_execution_results` lines 146–206) -/

/-- One raw entry of the sandbox's `results` list as the adapter sees it: a
Python dict (`{"type": ..., "content": ...}`), an object carrying `png` /
`text` attributes (E2B shape; a present-but-falsy `png` attribute is
modelled as `png = ""`), or any other unclassifiable value. -/
inductive RawEntry where
  | dictEntry (rtype : Option String) (content : Option String) : RawEntry
  | objEntry (hasPng : Bool) (png : String) (hasText : Bool) (text : String) :
      RawEntry
  | unknown : RawEntry
  deriving DecidableEq, Repr

/-- The `error` block of a raw sandbox result (`{"traceback": ...}`); a
present block is a non-empty (truthy) dict in the source. -/
structure ErrorBlock where
  traceback : Option (List Char)
  deriving DecidableEq, Repr

/-- The raw sandbox execution result consumed by the adapter
(`{stdout, stderr, results, error, execution_count, logs}`). -/
structure RawExecutionResult where
  results : List RawEntry
  error : Option ErrorBlock
  logs_stdout : List (List Char)
  logs_stderr : List (List Char)
  stdout_joined : List Char
  stderr_joined : List Char
  execution_count : Nat
  exit_code : Nat
  deriving DecidableEq, Repr

/-- `_convert_execution_results`: dict entries with type `"png"` become
`image`, type `"raw"` becomes `text`, any other dict is dropped; object
entries with a truthy `png` attribute become `image`, else ones with a
`text` attribute become `text`; everything else is dropped. -/
def convert_execution_results : List RawEntry → List ResultEntry
  | [] => []
  | RawEntry.dictEntry rtype content :: rest =>
    if rtype = some "png" then
      ⟨"image", content.getD ""⟩ :: convert_execution_results rest
    else if rtype = some "raw" then
      ⟨"text", content.getD ""⟩ :: convert_execution_results rest
    else convert_execution_results rest
  | RawEntry.objEntry hasPng png hasText text :: rest =>
    if hasPng = true ∧ png ≠ "" then
      ⟨"image", png⟩ :: convert_execution_results rest
    else if hasText = true then
      ⟨"text", text⟩ :: convert_execution_results rest
    else convert_execution_results rest
  | RawEntry.unknown :: rest => convert_execution_results rest

/-- Per-entry classification: the spec's reading of the adapter — each raw
entry independently maps to an `image` entry, a `text` entry or nothing. -/
def classifyEntry : RawEntry → Option ResultEntry
  | RawEntry.dictEntry rtype content =>
    if rtype = some "png" then some ⟨"image", content.getD ""⟩
    else if rtype = some "raw" then some ⟨"text", content.getD ""⟩
    else none
  | RawEntry.objEntry hasPng png hasText text =>
    if hasPng = true ∧ png ≠ "" then some ⟨"image", png⟩
    else if hasText = true then some ⟨"text", text⟩
    else none
  | RawEntry.unknown => none

/-- `_convert_to_data_thread`: execution counter becomes the id, the error
block's traceback (when the block is present) becomes `error`,
stdout/stderr log lists are joined and stripped, results are converted. -/
def convert_to_data_thread (res : RawExecutionResult) (process_id : String)
    (thread_id : Nat) (code : List Char) (user_request : Option String) :
    DataThread :=
  { id := res.execution_count
    process_id := process_id
    thread_id := thread_id
    user_request := user_request
    code := code
    error := match res.error with
      | some eb => eb.traceback
      | none => none
    stderr := pyStrip (pyJoin res.logs_stderr)
    stdout := pyStrip (pyJoin res.logs_stdout)
    results := convert_execution_results res.results
    observation := none
    pathes := [] }

/-! ### Sandbox receive loop
(`src/infrastructure/repositories/jupyter_sandbox_repository.py`,
`JupyterSandboxRepository._execute_code_internal`, lines 267–370)

The iopub message stream is embedded as a list of classified messages; the
loop processes messages in order until the first `status`/`idle` message
(or until the list — the messages received before the overall timeout — is
exhausted). -/

/-- One incoming iopub message, classified the way the receive loop reads
it (`msg_type` plus the content fields it touches). -/
inductive KernelMsg where
  | stream (name : String) (text : List Char) : KernelMsg
  | displayData (png : Option String) (textPlain : Option String) : KernelMsg
  | executeResult (png : Option String) (textPlain : Option String) : KernelMsg
  | errorMsg (traceback : List (List Char)) : KernelMsg
  | statusMsg (executionState : String) : KernelMsg
  | otherMsg : KernelMsg
  deriving DecidableEq, Repr

/-- The loop's accumulators: `stdout_lines`, `stderr_lines`, `results`,
`has_error`. -/
structure ReceiveAcc where
  stdout_lines : List (List Char)
  stderr_lines : List (List Char)
  results : List ResultEntry
  has_error : Bool
  deriving DecidableEq, Repr

/-- `display_data` / `execute_result` handling: a PNG payload appends a
`png` result, a `text/plain` payload appends a `raw` result — both when
both are present. -/
def displayStep (acc : ReceiveAcc) (png textPlain : Option String) :
    ReceiveAcc :=
  let acc' := match png with
    | some data => { acc with results := acc.results ++ [⟨"png", data⟩] }
    | none => acc
  match textPlain with
  | some data => { acc' with results := acc'.results ++ [⟨"raw", data⟩] }
  | none => acc'

/-- One iteration of the receive loop body on a single message. -/
def processIopubMsg (acc : ReceiveAcc) : KernelMsg → ReceiveAcc
  | KernelMsg.stream name text =>
    if name = "stdout" then
      { acc with stdout_lines := acc.stdout_lines ++ [text] }
    else if name = "stderr" then
      { acc with stderr_lines := acc.stderr_lines ++ [text] }
    else acc
  | KernelMsg.displayData png textPlain => displayStep acc png textPlain
  | KernelMsg.executeResult png textPlain => displayStep acc png textPlain
  | KernelMsg.errorMsg traceback =>
    { acc with
      stderr_lines := acc.stderr_lines ++ traceback
      has_error := true }
  | KernelMsg.statusMsg _ => acc
  | KernelMsg.otherMsg => acc

/-- Does this message end the loop (`msg_type == "status"` with
`execution_state == "idle"`)? -/
def isIdleStatus : KernelMsg → Bool
  | KernelMsg.statusMsg s => s = "idle"
  | _ => false

/-- The messages the loop actually processes: everything before the first
idle-status message (the idle message itself only sets `execution_done`). -/
def processedMessages (msgs : List KernelMsg) : List KernelMsg :=
  msgs.takeWhile (fun m => !(isIdleStatus m))

/-- Run the receive loop over the message stream. -/
def receiveLoop (msgs : List KernelMsg) : ReceiveAcc :=
  (processedMessages msgs).foldl processIopubMsg ⟨[], [], [], false⟩

/-- A `png`/`raw` loop result entry as the adapter later sees it: a dict
with `type` and `content` keys. -/
def toRawEntry (e : ResultEntry) : RawEntry :=
  RawEntry.dictEntry (some e.rtype) (some e.data)

/-- `_execute_code_internal`: the normally-returned dict when the receive
loop runs to completion (`Except.ok msgs`, where `msgs` are the messages
received in time), and the `except`-branch dict when an internal transport
exception `e` escapes the loop (`Except.error e`). -/
def execute_code_internal (outcome : Except (List Char) (List KernelMsg)) :
    RawExecutionResult :=
  match outcome with
  | Except.ok msgs =>
    let acc := receiveLoop msgs
    { results := acc.results.map toRawEntry
      error := none
      logs_stdout := acc.stdout_lines
      logs_stderr := acc.stderr_lines
      stdout_joined := pyJoin acc.stdout_lines
      stderr_joined := pyJoin acc.stderr_lines
      execution_count := 1
      exit_code := if acc.has_error then 1 else 0 }
  | Except.error e =>
    { results := []
      error := some ⟨some e⟩
      logs_stdout := []
      logs_stderr := [e]
      stdout_joined := []
      stderr_joined := "実行エラー: ".toList ++ e
      execution_count := 0
      exit_code := 1 }

/-- Is this message a kernel-level execution error? -/
def isErrorMsg : KernelMsg → Bool
  | KernelMsg.errorMsg _ => true
  | _ => false

/-! ### Analysis pipeline
(`src/presentation/workflow_orchestrator.py`,
`StreamlitWorkflowOrchestrator._run_analysis_job`, lines 110–592)

The run's control flow after a successful queue lookup is embedded as a
function from the run's environment (planner output, per-task raw sandbox
results, builtin-analysis outcome) to the ordered list of generator /
sandbox invocations the job makes, the DataThreads it accumulates, and the
report path it takes. -/

/-- Python truthiness of an optional string (`if file_path:`). -/
def pyTruthyStr : Option String → Bool
  | none => false
  | some s => !s.isEmpty

/-- Lines 267–277: `plan_tasks = list(getattr(plan_result, "tasks", []) or
[])`, then the empty-plan fallback — a single task whose hypothesis is the
raw user message. -/
def effectivePlanTasks (message : String)
    (planTasks : Option (List PlanTask)) : List PlanTask :=
  let tasks := planTasks.getD []
  if tasks.isEmpty then
    [{ hypothesis := message
       purpose := "ユーザー要求に直接対応する分析タスク"
       description := "元のユーザー要求をそのまま実行します。"
       chart_type := "auto" }]
  else tasks

/-- Lines 474–478: a task signals an error when its DataThread carries a
truthy `error` or a truthy `stderr` containing `"Error"`. -/
def signalsError (dt : DataThread) : Bool :=
  (match dt.error with
   | some e => !e.isEmpty
   | none => false) ||
  (!dt.stderr.isEmpty && containsSeq "Error".toList dt.stderr)

/-- One generator / sandbox invocation made by `_run_analysis_job`. -/
inductive UseCaseCall where
  | planGen : UseCaseCall
  | codeGen (taskIndex : Nat) : UseCaseCall
  | execCode (taskIndex : Nat) : UseCaseCall
  | reviewGen : UseCaseCall
  | builtinAnalysis : UseCaseCall
  | builtinReport : UseCaseCall
  | reportGen : UseCaseCall
  deriving DecidableEq, Repr

/-- Which report path lines 507–531 take. -/
inductive ReportKind where
  | builtin : ReportKind
  | llm : ReportKind
  deriving DecidableEq, Repr

/-- Observable outcome of one completed run of the task loop and report
stage. -/
structure PipelineRun where
  calls : List UseCaseCall
  taskResults : List DataThread
  reportKind : ReportKind
  deriving DecidableEq, Repr

/-- The completed-task-loop path of `_run_analysis_job`: plan generation
(with empty-plan fallback), then per task in order a code generation and a
sandbox execution whose raw result `exec i` is adapted into a DataThread,
then — iff some task signalled an error and a (truthy) file path was
supplied — the builtin analysis, and finally the builtin report iff that
analysis produced a summary (`builtinSummaryOk`, line 507 `if
built_in_summary:`), the LLM Report generator otherwise.  `genCode i` is
the composed code of task `i` and `taskPrompt i` its prompt. -/
def runAnalysisPipeline (message processId : String) (threadId : Nat)
    (filePath : Option String) (planTasks : Option (List PlanTask))
    (genCode : Nat → List Char) (taskPrompt : Nat → Option String)
    (exec : Nat → RawExecutionResult) (builtinSummaryOk : Bool) :
    PipelineRun :=
  let tasks := effectivePlanTasks message planTasks
  let n := tasks.length
  let results := (List.range n).map (fun i =>
    convert_to_data_thread (exec i)
      (processId ++ "_task_" ++ toString (i + 1)) threadId (genCode i)
      (taskPrompt i))
  let encounteredError := results.any signalsError
  let builtinTrig := encounteredError && pyTruthyStr filePath
  let builtinUsed := builtinTrig && builtinSummaryOk
  { calls := [UseCaseCall.planGen] ++
      (List.range n).flatMap
        (fun i => [UseCaseCall.codeGen i, UseCaseCall.execCode i]) ++
      (if builtinTrig then [UseCaseCall.builtinAnalysis] else []) ++
      (if builtinUsed then [UseCaseCall.builtinReport]
        else [UseCaseCall.reportGen])
    taskResults := results
    reportKind := if builtinUsed then ReportKind.builtin else ReportKind.llm }

/-- A concrete planned task used for concrete pipeline runs. -/
def sampleTask : PlanTask :=
  { hypothesis := "analyze this data"
    purpose := "p"
    description := "d"
    chart_type := "auto" }

/-- A concrete raw sandbox result carrying a kernel traceback in `error`. -/
def rawFailingResult : RawExecutionResult :=
  { results := []
    error := some ⟨some "Traceback (most recent call last): boom".toList⟩
    logs_stdout := []
    logs_stderr := []
    stdout_joined := []
    stderr_joined := []
    execution_count := 1
    exit_code := 1 }

/-- A concrete raw sandbox result of a successful execution. -/
def rawOkResult : RawExecutionResult :=
  { results := []
    error := none
    logs_stdout := [['o'], ['k']]
    logs_stderr := []
    stdout_joined := ['o', 'k']
    stderr_joined := []
    execution_count := 2
    exit_code := 0 }

/-- A concrete raw sandbox result mixing classifiable and unclassifiable
entries, used to exercise the Execution Adapter at a concrete input. -/
def sampleRawResult : RawExecutionResult :=
  { results := [RawEntry.dictEntry (some "png") (some "QUJD"),
      RawEntry.dictEntry (some "weird") (some "x"),
      RawEntry.objEntry true "IMG" false "",
      RawEntry.objEntry false "" true "hello",
      RawEntry.unknown]
    error := some ⟨some "TB".toList⟩
    logs_stdout := [" a".toList, "b \n".toList]
    logs_stderr := []
    stdout_joined := " ab \n".toList
    stderr_joined := []
    execution_count := 7
    exit_code := 0 }

/-! ### File path validation
(`src/presentation/file_utils.py`, `validate_file_path`, lines 26–81)

Paths are embedded as component lists; the filesystem facts the function
queries (`is_symlink`, `resolve`, existence of the resolved path, and the
lifecycle manager's `is_tracked_file`) are a record of oracles.  Python's
`real_path.relative_to(allowed_real)` succeeds exactly when the resolved
allowed folder's components are a prefix of the resolved path's
components; the `except (OSError, ValueError) → False` guard around path
resolution has no counterpart because resolution is total here. -/

/-- A filesystem path, by components. -/
abbrev FsPath := List String

/-- The filesystem facts `validate_file_path` observes. -/
structure FileSystem where
  isSymlink : FsPath → Bool
  resolve : FsPath → FsPath
  pathExists : FsPath → Bool
  isTrackedTempFile : FsPath → Bool

/-- `ALLOWED_DATA_FOLDERS = ["./data/", "data/"]`. -/
def ALLOWED_DATA_FOLDERS : List FsPath := [[".", "data"], ["data"]]

/-- `real_path.relative_to(allowed_real)` succeeds. -/
def fsPathIsWithin (base p : FsPath) : Bool := base.isPrefixOf p

/-- `validate_file_path`: reject symlinks, resolve, reject missing files,
accept paths inside an allowed folder, accept tracked temporary files,
reject everything else. -/
def validate_file_path (fs : FileSystem) (p : FsPath) : Bool :=
  if fs.isSymlink p then false
  else
    let real := fs.resolve p
    if !fs.pathExists real then false
    else if ALLOWED_DATA_FOLDERS.any
        (fun a => fsPathIsWithin (fs.resolve a) real) then true
    else if fs.isTrackedTempFile real then true
    else false

/-- A concrete filesystem: allowed folders resolve to `root/data`, a
traversal path escapes to `etc/passwd`, one path is a symlink, nothing is
a tracked temp file. -/
def sampleFs : FileSystem :=
  { isSymlink := fun p => p == ["root", "data", "link.csv"]
    resolve := fun p =>
      if p = ["data", "..", "..", "etc", "passwd"] then ["etc", "passwd"]
      else if p = [".", "data"] then ["root", "data"]
      else if p = ["data"] then ["root", "data"]
      else p
    pathExists := fun _ => true
    isTrackedTempFile := fun _ => false }

/-! ### Orchestrator session state
(`src/presentation/workflow_orchestrator.py`, `StreamlitWorkflowOrchestrator`)

A `threading.Thread` job is represented by its observable liveness bit.
A status message is the tagged record of §6 of the spec; the queue of a
session is a FIFO list (`queue.Queue`: `put` appends, `get_nowait` pops
the head, raising `queue.Empty` — modelled as `none` — when empty). -/

/-- Background job handle: only `is_alive()` is observable to the
orchestrator's control methods. -/
structure Job where
  alive : Bool
  deriving DecidableEq, Repr

/-- One status-message dictionary as put on a session queue or stored in
`session_results`. -/
inductive StatusMsg where
  | idle : StatusMsg
  | running : StatusMsg
  | progress (step total : Nat) (message : String) : StatusMsg
  | completed (step total : Nat) (outputDir : String) : StatusMsg
  | error (e : String) : StatusMsg
  deriving DecidableEq, Repr

/-- The four per-session maps of `StreamlitWorkflowOrchestrator.__init__`.
`session_results` values are `Option StatusMsg` because the code stores
`None` to clear a result (`self.session_results[session_id] = None`). -/
structure OrchestratorState where
  session_jobs : List (String × Job)
  session_queues : List (String × List StatusMsg)
  session_results : List (String × Option StatusMsg)
  session_thread_counters : List (String × Nat)
  deriving DecidableEq, Repr

/-- The error string returned when a job is already live for the session
(`"ERROR: このセッションで他の分析が実行中です"`). -/
def alreadyRunningError : String := "ERROR: このセッションで他の分析が実行中です"

/-- `process_user_message_async` (lines 56–108): reject with an error string
if a live job exists for `session_id`; otherwise replace the session queue
with a fresh empty one, clear the stored result, increment the thread
counter (initialising it to 0 first if absent), launch and record a new
background job, and return `"STARTED"`.  The `message` / `file_path`
arguments do not influence this state transition. -/
def process_user_message_async (st : OrchestratorState) (message : String)
    (session_id : String) (file_path : Option String) :
    String × OrchestratorState :=
  match assocLookup st.session_jobs session_id with
  | some job =>
    if job.alive then (alreadyRunningError, st)
    else processStart st session_id
  | none => processStart st session_id
where
  /-- The accepting branch of `process_user_message_async`. -/
  processStart (st : OrchestratorState) (session_id : String) :
      String × OrchestratorState :=
    let counter0 := (assocLookup st.session_thread_counters session_id).getD 0
    ("STARTED",
      { session_jobs := assocInsert st.session_jobs session_id ⟨true⟩
        session_queues := assocInsert st.session_queues session_id []
        session_results := assocInsert st.session_results session_id none
        session_thread_counters :=
          assocInsert st.session_thread_counters session_id (counter0 + 1) })

/-- `get_job_status` (lines 853–888): no queue for the session → `idle`;
non-empty queue → pop and return its head; empty queue → `running` while
the job thread is alive, else the stored result when one is present and
non-`None`, else `idle`. -/
def get_job_status (st : OrchestratorState) (session_id : String) :
    StatusMsg × OrchestratorState :=
  match assocLookup st.session_queues session_id with
  | none => (StatusMsg.idle, st)
  | some q =>
    match q with
    | msg :: rest =>
      (msg, { st with session_queues := assocInsert st.session_queues session_id rest })
    | [] =>
      let aliveNow :=
        match assocLookup st.session_jobs session_id with
        | some job => job.alive
        | none => false
      if aliveNow then (StatusMsg.running, st)
      else
        match assocLookup st.session_results session_id with
        | some (some result) => (result, st)
        | _ => (StatusMsg.idle, st)

/-- `cancel_current_job` (lines 890–908): always `success = false` with a
reason while a job is alive, `success = true` otherwise; never mutates
state. -/
def cancel_current_job (st : OrchestratorState) (session_id : String) :
    Bool × OrchestratorState :=
  match assocLookup st.session_jobs session_id with
  | some job => if job.alive then (false, st) else (true, st)
  | none => (true, st)

/-- `cleanup_session` (lines 910–943).  `aliveAfterWait` is the outcome of
the bounded `current_job.join(timeout=1.0)`: `true` when the job is still
alive after the wait, in which case the method returns early and removes
nothing; otherwise all four per-session entries are deleted. -/
def cleanup_session (st : OrchestratorState) (session_id : String)
    (aliveAfterWait : Bool) : OrchestratorState :=
  let stillAlive :=
    match assocLookup st.session_jobs session_id with
    | some job => job.alive && aliveAfterWait
    | none => false
  if stillAlive then st
  else
    { session_jobs := assocErase st.session_jobs session_id
      session_queues := assocErase st.session_queues session_id
      session_results := assocErase st.session_results session_id
      session_thread_counters := assocErase st.session_thread_counters session_id }

/-- Concrete state with no session registered at all. -/
def sampleEmptyState : OrchestratorState :=
  { session_jobs := []
    session_queues := []
    session_results := []
    session_thread_counters := [] }

/-- Concrete state with a live job for session `"s"`: used to exercise the
rejection branches at a concrete input. -/
def sampleBusyState : OrchestratorState :=
  { session_jobs := [("s", ⟨true⟩)]
    session_queues := [("s", [StatusMsg.progress 1 3 "working"])]
    session_results := [("s", none)]
    session_thread_counters := [("s", 2)] }

/-- Concrete state whose job for session `"s"` has terminated. -/
def sampleDoneState : OrchestratorState :=
  { session_jobs := [("s", ⟨false⟩)]
    session_queues := [("s", [])]
    session_results := [("s", some (StatusMsg.completed 3 3 "output/s/1"))]
    session_thread_counters := [("s", 2)] }

/-! ### Theorems -/

theorem assocErase_absent {α : Type} (m : List (String × α)) (k : String)
    (h : assocLookup m k = none) : assocErase m k = m := by
  induction m with
  | nil => rfl
  | cons p rest ih =>
    obtain ⟨k', v⟩ := p
    by_cases hk : k' = k
    · rw [assocLookup, if_pos hk] at h
      exact absurd h (by simp)
    · rw [assocLookup, if_neg hk] at h
      unfold assocErase at ih ⊢
      rw [List.filter_cons, if_pos (by simp [hk]), ih h]

theorem assocLookup_erase {α : Type} (m : List (String × α)) (k : String) :
    assocLookup (assocErase m k) k = none := by
  induction m with
  | nil => rfl
  | cons p rest ih =>
    obtain ⟨k', v⟩ := p
    by_cases hk : k' = k
    · simpa [assocErase, hk] using ih
    · simpa [assocErase, assocLookup, hk] using ih

theorem assocErase_idem {α : Type} (m : List (String × α)) (k : String) :
    assocErase (assocErase m k) k = assocErase m k :=
  assocErase_absent _ _ (assocLookup_erase m k)

/-- Two-step list induction matching the recursion pattern of
`replaceBS`. -/
theorem twoStepInduction {p : List Char → Prop} (h0 : p []) (h1 : ∀ x, p [x])
    (h2 : ∀ x y rest, p rest → p (y :: rest) → p (x :: y :: rest)) :
    ∀ xs, p xs := by
  have key : ∀ xs, p xs ∧ ∀ x, p (x :: xs) := by
    intro xs
    induction xs with
    | nil => exact ⟨h0, h1⟩
    | cons a l ih => exact ⟨ih.2 a, fun x => h2 x a l ih.1 (ih.2 a)⟩
  exact fun xs => (key xs).1

theorem replaceBS_cons_nb (c r m : Char) (hm : (m == '\\') = false) :
    ∀ ys, replaceBS c r (m :: ys) = m :: replaceBS c r ys := by
  intro ys
  cases ys with
  | nil => simp [replaceBS]
  | cons z zs => rw [replaceBS, if_neg (by simp [hm])]

theorem replaceBS_insert (c r : Char) (hc : c ≠ '\\') (ys : List Char) :
    ∀ xs, replaceBS c r (xs ++ '\\' :: c :: ys) =
      replaceBS c r xs ++ r :: replaceBS c r ys := by
  have hbc : (('\\' : Char) == c) = false := by simp [Ne.symm hc]
  have hbase : replaceBS c r ('\\' :: c :: ys) = r :: replaceBS c r ys := by
    rw [replaceBS, if_pos (by simp)]
  intro xs
  induction xs using twoStepInduction with
  | h0 =>
    show replaceBS c r ('\\' :: c :: ys) = r :: replaceBS c r ys
    exact hbase
  | h1 x =>
    show replaceBS c r (x :: '\\' :: c :: ys) = replaceBS c r [x] ++ r :: replaceBS c r ys
    conv_lhs => rw [replaceBS]
    rw [if_neg (by simp [hbc]), hbase]
    simp [replaceBS]
  | h2 x y rest ih ihy =>
    show replaceBS c r (x :: y :: (rest ++ '\\' :: c :: ys)) = _
    rw [replaceBS]
    by_cases hxy : (x == '\\' && y == c) = true
    · rw [if_pos hxy, ih]
      conv_rhs => rw [replaceBS, if_pos hxy]
      simp
    · rw [if_neg hxy]
      rw [List.cons_append] at ihy
      rw [ihy]
      conv_rhs => rw [replaceBS, if_neg hxy]
      simp

theorem replaceBS_inert_one (c r m : Char) (hm : m ≠ '\\') (hmc : m ≠ c)
    (ys : List Char) :
    ∀ xs, replaceBS c r (xs ++ m :: ys) =
      replaceBS c r xs ++ m :: replaceBS c r ys := by
  have hmb : ((m : Char) == '\\') = false := by simp [hm]
  have hmcb : ((m : Char) == c) = false := by simp [hmc]
  have hbase : replaceBS c r (m :: ys) = m :: replaceBS c r ys :=
    replaceBS_cons_nb c r m hmb ys
  intro xs
  induction xs using twoStepInduction with
  | h0 =>
    show replaceBS c r (m :: ys) = m :: replaceBS c r ys
    exact hbase
  | h1 x =>
    show replaceBS c r (x :: m :: ys) = replaceBS c r [x] ++ m :: replaceBS c r ys
    conv_lhs => rw [replaceBS]
    rw [if_neg (by simp [hmcb]), hbase]
    simp [replaceBS]
  | h2 x y rest ih ihy =>
    show replaceBS c r (x :: y :: (rest ++ m :: ys)) = _
    rw [replaceBS]
    by_cases hxy : (x == '\\' && y == c) = true
    · rw [if_pos hxy, ih]
      conv_rhs => rw [replaceBS, if_pos hxy]
      simp
    · rw [if_neg hxy]
      rw [List.cons_append] at ihy
      rw [ihy]
      conv_rhs => rw [replaceBS, if_neg hxy]
      simp

theorem replaceBS_inert_two (c r d : Char) (hc : c ≠ '\\') (hd : d ≠ '\\')
    (hdc : d ≠ c) (ys : List Char) :
    ∀ xs, replaceBS c r (xs ++ '\\' :: d :: ys) =
      replaceBS c r xs ++ '\\' :: d :: replaceBS c r ys := by
  have hdcb : ((d : Char) == c) = false := by simp [hdc]
  have hdb : ((d : Char) == '\\') = false := by simp [hd]
  have hbc : (('\\' : Char) == c) = false := by simp [Ne.symm hc]
  have hbase : replaceBS c r ('\\' :: d :: ys) =
      '\\' :: d :: replaceBS c r ys := by
    rw [replaceBS, if_neg (by simp [hdcb]), replaceBS_cons_nb c r d hdb]
  intro xs
  induction xs using twoStepInduction with
  | h0 =>
    show replaceBS c r ('\\' :: d :: ys) = '\\' :: d :: replaceBS c r ys
    exact hbase
  | h1 x =>
    show replaceBS c r (x :: '\\' :: d :: ys) =
      replaceBS c r [x] ++ '\\' :: d :: replaceBS c r ys
    conv_lhs => rw [replaceBS]
    rw [if_neg (by simp [hbc]), hbase]
    simp [replaceBS]
  | h2 x y rest ih ihy =>
    show replaceBS c r (x :: y :: (rest ++ '\\' :: d :: ys)) = _
    rw [replaceBS]
    by_cases hxy : (x == '\\' && y == c) = true
    · rw [if_pos hxy, ih]
      conv_rhs => rw [replaceBS, if_pos hxy]
      simp
    · rw [if_neg hxy]
      rw [List.cons_append] at ihy
      rw [ihy]
      conv_rhs => rw [replaceBS, if_neg hxy]
      simp

theorem replaceBS_head (c r y : Char) (ys : List Char) :
    (∃ t, replaceBS c r (y :: ys) = r :: t) ∨
    (∃ t, replaceBS c r (y :: ys) = y :: t) := by
  cases ys with
  | nil => exact Or.inr ⟨[], by simp [replaceBS]⟩
  | cons z zs =>
    by_cases h : (y == '\\' && z == c) = true
    · exact Or.inl ⟨replaceBS c r zs, by rw [replaceBS, if_pos h]⟩
    · exact Or.inr ⟨replaceBS c r (z :: zs), by rw [replaceBS, if_neg h]⟩

theorem replaceBS_no_pattern (c r : Char) (hr : r ≠ '\\') (hrc : r ≠ c) :
    ∀ xs, containsSeq ['\\', c] (replaceBS c r xs) = false := by
  have hrb : (('\\' : Char) == r) = false := by simp [Ne.symm hr]
  have hcr : ((c : Char) == r) = false := by simp [Ne.symm hrc]
  intro xs
  induction xs using twoStepInduction with
  | h0 => rfl
  | h1 x => simp [replaceBS, containsSeq, isPrefixOfB]
  | h2 x y rest ih ihy =>
    by_cases hxy : (x == '\\' && y == c) = true
    · rw [replaceBS, if_pos hxy, containsSeq]
      simp [isPrefixOfB, hrb, ih]
    · rw [replaceBS, if_neg hxy, containsSeq]
      rcases replaceBS_head c r y rest with ⟨t, ht⟩ | ⟨t, ht⟩
      · rw [ht] at ihy ⊢
        simp [isPrefixOfB, hcr, ihy]
      · rw [ht] at ihy ⊢
        by_cases hx : (x == '\\') = true
        · have hyc : (y == c) = false := by
            cases hyc' : (y == c) with
            | false => rfl
            | true => exact absurd (by simp [hx, hyc']) hxy
          have hcy : ((c : Char) == y) = false := by
            simp only [beq_eq_false_iff_ne, ne_eq] at hyc ⊢
            exact fun hyx => hyc hyx.symm
          simp [isPrefixOfB, hcy, ihy]
        · have hx' : (('\\' : Char) == x) = false := by
            simp only [beq_eq_false_iff_ne, ne_eq] at *
            intro hme
            exact absurd hme.symm (by simpa using hx)
          simp [isPrefixOfB, hx', ihy]

theorem replaceBS_preserves_no_pattern (c c' r' : Char) (hr : r' ≠ '\\')
    (hrc : r' ≠ c) :
    ∀ xs, containsSeq ['\\', c] xs = false →
      containsSeq ['\\', c] (replaceBS c' r' xs) = false := by
  have hrb : (('\\' : Char) == r') = false := by simp [Ne.symm hr]
  have hcr : ((c : Char) == r') = false := by simp [Ne.symm hrc]
  intro xs
  induction xs using twoStepInduction with
  | h0 => exact fun h => h
  | h1 x => exact fun h => by simpa [replaceBS] using h
  | h2 x y rest ih ihy =>
    intro h
    rw [containsSeq, Bool.or_eq_false_iff] at h
    obtain ⟨hpre, htail⟩ := h
    have hrest : containsSeq ['\\', c] rest = false := by
      rw [containsSeq, Bool.or_eq_false_iff] at htail
      exact htail.2
    by_cases hxy : (x == '\\' && y == c') = true
    · rw [replaceBS, if_pos hxy, containsSeq]
      simp [isPrefixOfB, hrb, ih hrest]
    · rw [replaceBS, if_neg hxy, containsSeq]
      have hL := ihy htail
      rcases replaceBS_head c' r' y rest with ⟨t, ht⟩ | ⟨t, ht⟩
      · rw [ht] at hL ⊢
        simp [isPrefixOfB, hcr, hL]
      · rw [ht] at hL ⊢
        by_cases hx : (x == '\\') = true
        · have hxeq : x = '\\' := by simpa using hx
          have hcy : ((c : Char) == y) = false := by
            rw [hxeq] at hpre
            simp only [isPrefixOfB, beq_self_eq_true, Bool.true_and,
              Bool.and_true] at hpre
            simpa using hpre
          simp [isPrefixOfB, hcy, hL]
        · have hx' : (('\\' : Char) == x) = false := by
            simp only [beq_eq_false_iff_ne, ne_eq] at *
            intro hme
            exact absurd hme.symm (by simpa using hx)
          simp [isPrefixOfB, hx', hL]

theorem decode_insert_n (xs ys : List Char) :
    decodeEscapeSequences (xs ++ '\\' :: 'n' :: ys) =
      decodeEscapeSequences xs ++ '\n' :: decodeEscapeSequences ys := by
  unfold decodeEscapeSequences
  rw [replaceBS_insert 'n' '\n' (by decide) ys xs,
    replaceBS_inert_one 't' '\t' '\n' (by decide) (by decide) _ _,
    replaceBS_inert_one 'r' '\r' '\n' (by decide) (by decide) _ _]

theorem decode_insert_t (xs ys : List Char) :
    decodeEscapeSequences (xs ++ '\\' :: 't' :: ys) =
      decodeEscapeSequences xs ++ '\t' :: decodeEscapeSequences ys := by
  unfold decodeEscapeSequences
  rw [replaceBS_inert_two 'n' '\n' 't' (by decide) (by decide) (by decide) ys xs,
    replaceBS_insert 't' '\t' (by decide) _ _,
    replaceBS_inert_one 'r' '\r' '\t' (by decide) (by decide) _ _]

theorem decode_insert_r (xs ys : List Char) :
    decodeEscapeSequences (xs ++ '\\' :: 'r' :: ys) =
      decodeEscapeSequences xs ++ '\r' :: decodeEscapeSequences ys := by
  unfold decodeEscapeSequences
  rw [replaceBS_inert_two 'n' '\n' 'r' (by decide) (by decide) (by decide) ys xs,
    replaceBS_inert_two 't' '\t' 'r' (by decide) (by decide) (by decide) _ _,
    replaceBS_insert 'r' '\r' (by decide) _ _]

/-- C1: for every session id, `start` (`process_user_message_async`) called
while a previously started job for that session is still alive returns the
"already running" error string and leaves the whole state — in particular
that session's queue, stored result and thread counter — unchanged; when no
job is alive for the session, it returns `"STARTED"` after replacing the
session's queue with a fresh empty one, clearing its stored result, and
incrementing its thread counter by one (from 0 when absent), registering a
fresh live job. -/
theorem start_rejects_live_job_and_resets_on_accept
    (st : OrchestratorState) (message sid : String) (fp : Option String) :
    (∀ job, assocLookup st.session_jobs sid = some job → job.alive = true →
      process_user_message_async st message sid fp = (alreadyRunningError, st)) ∧
    ((∀ job, assocLookup st.session_jobs sid = some job → job.alive = false) →
      (process_user_message_async st message sid fp).1 = "STARTED" ∧
      (process_user_message_async st message sid fp).2.session_queues =
        assocInsert st.session_queues sid [] ∧
      (process_user_message_async st message sid fp).2.session_results =
        assocInsert st.session_results sid none ∧
      (process_user_message_async st message sid fp).2.session_thread_counters =
        assocInsert st.session_thread_counters sid
          ((assocLookup st.session_thread_counters sid).getD 0 + 1) ∧
      (process_user_message_async st message sid fp).2.session_jobs =
        assocInsert st.session_jobs sid ⟨true⟩) := by
  constructor
  · intro job hjob halive
    simp [process_user_message_async, hjob, halive]
  · intro hdead
    unfold process_user_message_async
    cases hjob : assocLookup st.session_jobs sid with
    | none => simp [process_user_message_async.processStart]
    | some job =>
      have : job.alive = false := hdead job hjob
      simp [this, process_user_message_async.processStart]

/-- Witness for C1 at concrete inputs: the busy state is rejected verbatim
and the finished state is accepted with queue replaced, result cleared and
counter bumped from 2 to 3. -/
theorem start_rejects_live_job_and_resets_on_accept_witness :
    process_user_message_async sampleBusyState "m" "s" none =
      (alreadyRunningError, sampleBusyState) ∧
    (process_user_message_async sampleDoneState "m" "s" none).1 = "STARTED" ∧
    (process_user_message_async sampleDoneState "m" "s" none).2.session_thread_counters =
      [("s", 3)] := by
  refine ⟨?_, ?_, ?_⟩
  · exact (start_rejects_live_job_and_resets_on_accept
      sampleBusyState "m" "s" none).1 ⟨true⟩ (by decide) rfl
  · exact ((start_rejects_live_job_and_resets_on_accept
      sampleDoneState "m" "s" none).2 (by decide)).1
  · have h := ((start_rejects_live_job_and_resets_on_accept
      sampleDoneState "m" "s" none).2 (by decide)).2.2.2.1
    simpa [sampleDoneState, assocInsert, assocLookup] using h

/-- C2: `poll` (`get_job_status`) is total (never raises) and returns exactly
one of the documented statuses: no queue for the session → `{"status":
"idle"}` with the state untouched; a non-empty queue → dequeues and returns
exactly its first pending message; an empty queue → `running` while the
session's job thread is alive, else the stored terminal result when one is
present and non-`None`, else `idle`. -/
theorem poll_drains_one_or_reports_liveness
    (st : OrchestratorState) (sid : String) :
    (assocLookup st.session_queues sid = none →
      get_job_status st sid = (StatusMsg.idle, st)) ∧
    (∀ msg rest, assocLookup st.session_queues sid = some (msg :: rest) →
      get_job_status st sid =
        (msg, { st with session_queues := assocInsert st.session_queues sid rest })) ∧
    (∀ job, assocLookup st.session_queues sid = some [] →
      assocLookup st.session_jobs sid = some job → job.alive = true →
      get_job_status st sid = (StatusMsg.running, st)) ∧
    (∀ r, assocLookup st.session_queues sid = some [] →
      (∀ job, assocLookup st.session_jobs sid = some job → job.alive = false) →
      assocLookup st.session_results sid = some (some r) →
      get_job_status st sid = (r, st)) ∧
    (assocLookup st.session_queues sid = some [] →
      (∀ job, assocLookup st.session_jobs sid = some job → job.alive = false) →
      (assocLookup st.session_results sid = none ∨
        assocLookup st.session_results sid = some none) →
      get_job_status st sid = (StatusMsg.idle, st)) := by
  refine ⟨?_, ?_, ?_, ?_, ?_⟩
  · intro h
    simp [get_job_status, h]
  · intro msg rest h
    simp [get_job_status, h]
  · intro job hq hj halive
    simp [get_job_status, hq, hj, halive]
  · intro r hq hdead hr
    unfold get_job_status
    rw [hq]
    cases hj : assocLookup st.session_jobs sid with
    | none => simp [hr]
    | some job => simp [hdead job hj, hr]
  · intro hq hdead hr
    unfold get_job_status
    rw [hq]
    have hres : (match assocLookup st.session_results sid with
        | some (some result) => (result, st)
        | _ => (StatusMsg.idle, st)) = (StatusMsg.idle, st) := by
      rcases hr with h | h <;> rw [h]
    cases hj : assocLookup st.session_jobs sid with
    | none => simpa using hres
    | some job => simpa [hdead job hj] using hres

/-- Witness for C2 at concrete inputs: polling a session with no queue is
`idle`; a queued progress message is drained; the finished sample state
returns its stored terminal result. -/
theorem poll_drains_one_or_reports_liveness_witness :
    get_job_status sampleEmptyState "s" = (StatusMsg.idle, sampleEmptyState) ∧
    (get_job_status sampleBusyState "s").1 = StatusMsg.progress 1 3 "working" ∧
    get_job_status sampleDoneState "s" =
      (StatusMsg.completed 3 3 "output/s/1", sampleDoneState) := by
  refine ⟨?_, ?_, ?_⟩
  · exact (poll_drains_one_or_reports_liveness _ "s").1 rfl
  · have h := (poll_drains_one_or_reports_liveness sampleBusyState "s").2.1
      (StatusMsg.progress 1 3 "working") [] (by decide)
    simp [h]
  · exact (poll_drains_one_or_reports_liveness sampleDoneState "s").2.2.2.1
      (StatusMsg.completed 3 3 "output/s/1") (by decide)
      (by intro job hj; cases hj; rfl) (by decide)

/-- C9: `teardown` (`cleanup_session`) on a session whose job has finished
(or never existed) never raises — it is a total function here by
construction — and applying it a second time observes and changes nothing
(the second call is the identity on the state produced by the first);
conversely, while the job is still alive after the bounded one-second wait,
no session state is removed at all. -/
theorem cleanup_idempotent_when_finished
    (st : OrchestratorState) (sid : String) (w₁ w₂ : Bool) :
    ((∀ job, assocLookup st.session_jobs sid = some job → job.alive = false) →
      cleanup_session (cleanup_session st sid w₁) sid w₂ =
        cleanup_session st sid w₁) ∧
    (∀ job, assocLookup st.session_jobs sid = some job → job.alive = true →
      cleanup_session st sid true = st) := by
  constructor
  · intro hdead
    have hremove : cleanup_session st sid w₁ =
        { session_jobs := assocErase st.session_jobs sid
          session_queues := assocErase st.session_queues sid
          session_results := assocErase st.session_results sid
          session_thread_counters := assocErase st.session_thread_counters sid } := by
      unfold cleanup_session
      cases hj : assocLookup st.session_jobs sid with
      | none => simp
      | some job => simp [hdead job hj]
    rw [hremove]
    unfold cleanup_session
    rw [assocLookup_erase]
    simp [assocErase_idem]
  · intro job hjob halive
    simp [cleanup_session, hjob, halive]

/-- Witness for C9 at concrete inputs: tearing the finished sample state
down twice equals tearing it down once, and a still-live job blocks any
state removal. -/
theorem cleanup_idempotent_when_finished_witness :
    cleanup_session (cleanup_session sampleDoneState "s" false) "s" false =
      cleanup_session sampleDoneState "s" false ∧
    cleanup_session sampleBusyState "s" true = sampleBusyState := by
  constructor
  · exact (cleanup_idempotent_when_finished sampleDoneState "s" false false).1
      (by intro job hj; cases hj; rfl)
  · exact (cleanup_idempotent_when_finished sampleBusyState "s" false false).2
      ⟨true⟩ (by decide) rfl

/-- C7: for every code string submitted to the sandbox's `execute_code`, the
literal two-character escape sequences backslash-n, backslash-t and
backslash-r are replaced by the real newline, tab and carriage-return
characters before the code is executed: the executed string is the decoded
string, each occurrence of a literal sequence becomes the corresponding
control character (at any split of the input), and no literal sequence
survives decoding; if the normalization step itself raises, the original
unmodified code string is executed instead. -/
theorem execute_code_decodes_escape_sequences (code xs ys : List Char) :
    sandboxExecutedCode code = decodeEscapeSequences code ∧
    decodeEscapeSequences (xs ++ '\\' :: 'n' :: ys) =
      decodeEscapeSequences xs ++ '\n' :: decodeEscapeSequences ys ∧
    decodeEscapeSequences (xs ++ '\\' :: 't' :: ys) =
      decodeEscapeSequences xs ++ '\t' :: decodeEscapeSequences ys ∧
    decodeEscapeSequences (xs ++ '\\' :: 'r' :: ys) =
      decodeEscapeSequences xs ++ '\r' :: decodeEscapeSequences ys ∧
    containsSeq ['\\', 'n'] (decodeEscapeSequences code) = false ∧
    containsSeq ['\\', 't'] (decodeEscapeSequences code) = false ∧
    containsSeq ['\\', 'r'] (decodeEscapeSequences code) = false ∧
    (∀ (decode : List Char → Except String (List Char)) (e : String),
      decode code = Except.error e → executedCodeWith decode code = code) := by
  refine ⟨rfl, decode_insert_n xs ys, decode_insert_t xs ys,
    decode_insert_r xs ys, ?_, ?_, ?_, ?_⟩
  · exact replaceBS_preserves_no_pattern 'n' 'r' '\r' (by decide) (by decide) _
      (replaceBS_preserves_no_pattern 'n' 't' '\t' (by decide) (by decide) _
        (replaceBS_no_pattern 'n' '\n' (by decide) (by decide) _))
  · exact replaceBS_preserves_no_pattern 't' 'r' '\r' (by decide) (by decide) _
      (replaceBS_no_pattern 't' '\t' (by decide) (by decide) _)
  · exact replaceBS_no_pattern 'r' '\r' (by decide) (by decide) _
  · intro decode e hde
    unfold executedCodeWith
    rw [hde]

/-- Witness for C7 at concrete inputs: a code string with literal `\n` and
`\t` sequences is decoded into real control characters, and a decoder that
raises leaves the original string untouched. -/
theorem execute_code_decodes_escape_sequences_witness :
    sandboxExecutedCode ("x=1\\ny=2\\tz".toList) = "x=1\ny=2\tz".toList ∧
    executedCodeWith (fun _ => Except.error "decode failure")
      ("a\\nb".toList) = "a\\nb".toList := by
  constructor
  · have h := (execute_code_decodes_escape_sequences
      ("x=1\\ny=2\\tz".toList) [] []).1
    rw [h]
    decide
  · exact (execute_code_decodes_escape_sequences
      ("a\\nb".toList) [] []).2.2.2.2.2.2.2 _ "decode failure" rfl

theorem convert_eq_filterMap :
    ∀ l, convert_execution_results l = l.filterMap classifyEntry := by
  intro l
  induction l with
  | nil => rfl
  | cons e rest ih =>
    cases e with
    | dictEntry rtype content =>
      by_cases h1 : rtype = some "png"
      · simp [convert_execution_results, classifyEntry, h1,
          List.filterMap_cons, ih]
      · by_cases h2 : rtype = some "raw"
        · simp [convert_execution_results, classifyEntry, h1, h2,
            List.filterMap_cons, ih]
        · simp [convert_execution_results, classifyEntry, h1, h2,
            List.filterMap_cons, ih]
    | objEntry hasPng png hasText text =>
      by_cases h1 : hasPng = true ∧ png ≠ ""
      · simp [convert_execution_results, classifyEntry, h1,
          List.filterMap_cons, ih]
      · by_cases h2 : hasText = true
        · simp [convert_execution_results, classifyEntry, h1, h2,
            List.filterMap_cons, ih]
        · simp [convert_execution_results, classifyEntry, h1, h2,
            List.filterMap_cons, ih]
    | unknown =>
      simp [convert_execution_results, classifyEntry, List.filterMap_cons, ih]

theorem classifyEntry_type (raw : RawEntry) (e : ResultEntry)
    (h : classifyEntry raw = some e) :
    e.rtype = "image" ∨ e.rtype = "text" := by
  cases raw with
  | dictEntry rtype content =>
    simp only [classifyEntry] at h
    split at h
    · cases h; exact Or.inl rfl
    · split at h
      · cases h; exact Or.inr rfl
      · exact absurd h (by simp)
  | objEntry hasPng png hasText text =>
    simp only [classifyEntry] at h
    split at h
    · cases h; exact Or.inl rfl
    · split at h
      · cases h; exact Or.inr rfl
      · exact absurd h (by simp)
  | unknown => exact absurd h (by simp [classifyEntry])

/-- C5: the Execution Adapter conversion is total — it is a function on
arbitrary raw entry lists, classifying each entry independently
(`filterMap`) and silently dropping what it cannot classify — every
produced result entry has type exactly `"image"` or `"text"`, the sandbox's
`execution_count` becomes the DataThread id, the stdout/stderr log lists
are joined into single stripped strings, and a present error block's
traceback becomes the DataThread's `error`. -/
theorem adapter_total_and_normalizes (res : RawExecutionResult)
    (pid : String) (tid : Nat) (code : List Char) (ur : Option String) :
    (convert_to_data_thread res pid tid code ur).results =
      res.results.filterMap classifyEntry ∧
    (∀ e, e ∈ (convert_to_data_thread res pid tid code ur).results →
      e.rtype = "image" ∨ e.rtype = "text") ∧
    (convert_to_data_thread res pid tid code ur).id = res.execution_count ∧
    (convert_to_data_thread res pid tid code ur).stdout =
      pyStrip (pyJoin res.logs_stdout) ∧
    (convert_to_data_thread res pid tid code ur).stderr =
      pyStrip (pyJoin res.logs_stderr) ∧
    (convert_to_data_thread res pid tid code ur).error =
      (match res.error with
       | some eb => eb.traceback
       | none => none) := by
  refine ⟨convert_eq_filterMap res.results, ?_, rfl, rfl, rfl, rfl⟩
  intro e he
  have he' : e ∈ res.results.filterMap classifyEntry := by
    rw [← convert_eq_filterMap res.results]
    exact he
  obtain ⟨raw, _, hcl⟩ := List.mem_filterMap.mp he'
  exact classifyEntry_type raw e hcl

/-- Witness for C5 at a concrete raw result mixing classifiable and
unclassifiable entries: the unknown/odd entries are dropped, the rest are
normalized, the id/stdout/error rules evaluate as claimed. -/
theorem adapter_total_and_normalizes_witness :
    (convert_to_data_thread sampleRawResult "p" 1 [] none).results =
      [⟨"image", "QUJD"⟩, ⟨"image", "IMG"⟩, ⟨"text", "hello"⟩] ∧
    ((⟨"text", "hello"⟩ : ResultEntry).rtype = "image" ∨
      (⟨"text", "hello"⟩ : ResultEntry).rtype = "text") ∧
    (convert_to_data_thread sampleRawResult "p" 1 [] none).id = 7 ∧
    (convert_to_data_thread sampleRawResult "p" 1 [] none).stdout =
      ['a', 'b'] ∧
    (convert_to_data_thread sampleRawResult "p" 1 [] none).error =
      some "TB".toList := by
  refine ⟨?_, ?_, ?_, ?_, ?_⟩
  · have h := (adapter_total_and_normalizes sampleRawResult "p" 1 [] none).1
    rw [h]
    decide
  · exact (adapter_total_and_normalizes sampleRawResult "p" 1 [] none).2.1
      ⟨"text", "hello"⟩ (by decide)
  · have h := (adapter_total_and_normalizes sampleRawResult "p" 1 [] none).2.2.1
    rw [h]
    decide
  · have h :=
      (adapter_total_and_normalizes sampleRawResult "p" 1 [] none).2.2.2.1
    rw [h]
    decide
  · have h :=
      (adapter_total_and_normalizes sampleRawResult "p" 1 [] none).2.2.2.2.2
    rw [h]
    decide

theorem displayStep_stdout (acc : ReceiveAcc) (png textPlain : Option String) :
    (displayStep acc png textPlain).stdout_lines = acc.stdout_lines := by
  cases png <;> cases textPlain <;> simp [displayStep]

theorem displayStep_stderr (acc : ReceiveAcc) (png textPlain : Option String) :
    (displayStep acc png textPlain).stderr_lines = acc.stderr_lines := by
  cases png <;> cases textPlain <;> simp [displayStep]

theorem displayStep_has_error (acc : ReceiveAcc) (png textPlain : Option String) :
    (displayStep acc png textPlain).has_error = acc.has_error := by
  cases png <;> cases textPlain <;> simp [displayStep]

theorem processIopubMsg_has_error (acc : ReceiveAcc) (m : KernelMsg) :
    (processIopubMsg acc m).has_error = (acc.has_error || isErrorMsg m) := by
  cases m with
  | stream name text =>
    by_cases h1 : name = "stdout"
    · simp [processIopubMsg, isErrorMsg, h1]
    · by_cases h2 : name = "stderr" <;>
        simp [processIopubMsg, isErrorMsg, h1, h2]
  | displayData png tp => simp [processIopubMsg, isErrorMsg, displayStep_has_error]
  | executeResult png tp => simp [processIopubMsg, isErrorMsg, displayStep_has_error]
  | errorMsg tb => simp [processIopubMsg, isErrorMsg]
  | statusMsg s => simp [processIopubMsg, isErrorMsg]
  | otherMsg => simp [processIopubMsg, isErrorMsg]

theorem foldl_has_error (l : List KernelMsg) :
    ∀ acc, (l.foldl processIopubMsg acc).has_error =
      (acc.has_error || l.any isErrorMsg) := by
  induction l with
  | nil => intro acc; simp
  | cons m rest ih =>
    intro acc
    simp only [List.foldl_cons, List.any_cons]
    rw [ih (processIopubMsg acc m), processIopubMsg_has_error]
    cases acc.has_error <;> cases isErrorMsg m <;> simp

theorem processIopubMsg_stderr_ext (acc : ReceiveAcc) (m : KernelMsg) :
    ∃ ext, (processIopubMsg acc m).stderr_lines = acc.stderr_lines ++ ext := by
  cases m with
  | stream name text =>
    by_cases h1 : name = "stdout"
    · exact ⟨[], by simp [processIopubMsg, h1]⟩
    · by_cases h2 : name = "stderr"
      · exact ⟨[text], by simp [processIopubMsg, h1, h2]⟩
      · exact ⟨[], by simp [processIopubMsg, h1, h2]⟩
  | displayData png tp => exact ⟨[], by simp [processIopubMsg, displayStep_stderr]⟩
  | executeResult png tp => exact ⟨[], by simp [processIopubMsg, displayStep_stderr]⟩
  | errorMsg tb => exact ⟨tb, by simp [processIopubMsg]⟩
  | statusMsg s => exact ⟨[], by simp [processIopubMsg]⟩
  | otherMsg => exact ⟨[], by simp [processIopubMsg]⟩

theorem foldl_stderr_ext (l : List KernelMsg) :
    ∀ acc, ∃ ext,
      (l.foldl processIopubMsg acc).stderr_lines = acc.stderr_lines ++ ext := by
  induction l with
  | nil => intro acc; exact ⟨[], by simp⟩
  | cons m rest ih =>
    intro acc
    obtain ⟨e0, h0⟩ := processIopubMsg_stderr_ext acc m
    obtain ⟨e1, h1⟩ := ih (processIopubMsg acc m)
    exact ⟨e0 ++ e1, by rw [List.foldl_cons, h1, h0, List.append_assoc]⟩

theorem foldl_stderr_of_errorMsg (l : List KernelMsg) (tb : List (List Char)) :
    ∀ acc, KernelMsg.errorMsg tb ∈ l → ∀ t ∈ tb,
      t ∈ (l.foldl processIopubMsg acc).stderr_lines := by
  induction l with
  | nil => intro acc h; exact absurd h (List.not_mem_nil _)
  | cons m rest ih =>
    intro acc hm t ht
    rw [List.mem_cons] at hm
    rcases hm with hm | hm
    · subst hm
      rw [List.foldl_cons]
      obtain ⟨ext, hext⟩ := foldl_stderr_ext rest (processIopubMsg acc (KernelMsg.errorMsg tb))
      rw [hext]
      simp only [processIopubMsg, List.append_assoc, List.mem_append]
      exact Or.inr (Or.inl ht)
    · exact ih (processIopubMsg acc m) hm t ht

theorem processIopubMsg_stdout_src (acc : ReceiveAcc) (m : KernelMsg)
    (line : List Char) (h : line ∈ (processIopubMsg acc m).stdout_lines) :
    line ∈ acc.stdout_lines ∨ m = KernelMsg.stream "stdout" line := by
  cases m with
  | stream name text =>
    by_cases h1 : name = "stdout"
    · subst h1
      rw [show processIopubMsg acc (KernelMsg.stream "stdout" text) =
        { acc with stdout_lines := acc.stdout_lines ++ [text] } from by
          simp [processIopubMsg]] at h
      rcases List.mem_append.mp h with h | h
      · exact Or.inl h
      · exact Or.inr (by rw [List.mem_singleton.mp h])
    · by_cases h2 : name = "stderr"
      · simp only [processIopubMsg, h1, if_false, h2, if_true] at h
        exact Or.inl h
      · simp only [processIopubMsg, h1, h2, if_false] at h
        exact Or.inl h
  | displayData png tp =>
    rw [show processIopubMsg acc (KernelMsg.displayData png tp) =
      displayStep acc png tp from rfl, displayStep_stdout] at h
    exact Or.inl h
  | executeResult png tp =>
    rw [show processIopubMsg acc (KernelMsg.executeResult png tp) =
      displayStep acc png tp from rfl, displayStep_stdout] at h
    exact Or.inl h
  | errorMsg tb => exact Or.inl h
  | statusMsg s => exact Or.inl h
  | otherMsg => exact Or.inl h

theorem foldl_stdout_src (l : List KernelMsg) :
    ∀ acc line, line ∈ (l.foldl processIopubMsg acc).stdout_lines →
      line ∈ acc.stdout_lines ∨ KernelMsg.stream "stdout" line ∈ l := by
  induction l with
  | nil => intro acc line h; exact Or.inl h
  | cons m rest ih =>
    intro acc line h
    rw [List.foldl_cons] at h
    rcases ih (processIopubMsg acc m) line h with h' | h'
    · rcases processIopubMsg_stdout_src acc m line h' with h'' | h''
      · exact Or.inl h''
      · exact Or.inr (by rw [← h''] at *; exact List.mem_cons_self m rest)
    · exact Or.inr (List.mem_cons_of_mem m h')

/-- C10 (implicit behaviour): whenever the sandbox's receive loop runs to
completion without an internal transport exception, the returned result's
`error` field is `None` — even when the kernel reported an execution error,
in which case the traceback lines are appended to the stderr log and
`exit_code` is 1 — and a DataThread built from such a result carries
`error = None`; stdout lines come only from `stdout` stream messages, so
the traceback reaches stderr alone. -/
theorem internal_execute_swallows_kernel_errors (msgs : List KernelMsg)
    (tb : List (List Char)) (pid : String) (tid : Nat) (code : List Char)
    (ur : Option String) :
    (execute_code_internal (Except.ok msgs)).error = none ∧
    (convert_to_data_thread (execute_code_internal (Except.ok msgs))
      pid tid code ur).error = none ∧
    (KernelMsg.errorMsg tb ∈ processedMessages msgs →
      (execute_code_internal (Except.ok msgs)).exit_code = 1 ∧
      ∀ t ∈ tb,
        t ∈ (execute_code_internal (Except.ok msgs)).logs_stderr) ∧
    (∀ line, line ∈ (execute_code_internal (Except.ok msgs)).logs_stdout →
      KernelMsg.stream "stdout" line ∈ processedMessages msgs) := by
  refine ⟨rfl, rfl, ?_, ?_⟩
  · intro hmem
    constructor
    · show (if (receiveLoop msgs).has_error then 1 else 0) = 1
      have herr : (receiveLoop msgs).has_error = true := by
        unfold receiveLoop
        rw [foldl_has_error]
        have : (processedMessages msgs).any isErrorMsg = true :=
          List.any_eq_true.mpr ⟨KernelMsg.errorMsg tb, hmem, rfl⟩
        simp [this]
      simp [herr]
    · intro t ht
      show t ∈ (receiveLoop msgs).stderr_lines
      unfold receiveLoop
      exact foldl_stderr_of_errorMsg (processedMessages msgs) tb _ hmem t ht
  · intro line hline
    have h := foldl_stdout_src (processedMessages msgs) ⟨[], [], [], false⟩
      line hline
    rcases h with h | h
    · exact absurd h (List.not_mem_nil _)
    · exact h

/-- Witness for C10 at a concrete message stream containing a kernel error:
the returned `error` field is `None`, the exit code is 1, the traceback
line is in the stderr log, and the only stdout line stems from a stdout
stream message. -/
theorem internal_execute_swallows_kernel_errors_witness :
    (execute_code_internal (Except.ok
      [KernelMsg.stream "stdout" ['h'], KernelMsg.errorMsg [['T', 'B']],
        KernelMsg.statusMsg "idle", KernelMsg.stream "stdout" ['z']])).error
      = none ∧
    (execute_code_internal (Except.ok
      [KernelMsg.stream "stdout" ['h'], KernelMsg.errorMsg [['T', 'B']],
        KernelMsg.statusMsg "idle",
        KernelMsg.stream "stdout" ['z']])).exit_code = 1 ∧
    ['T', 'B'] ∈ (execute_code_internal (Except.ok
      [KernelMsg.stream "stdout" ['h'], KernelMsg.errorMsg [['T', 'B']],
        KernelMsg.statusMsg "idle",
        KernelMsg.stream "stdout" ['z']])).logs_stderr ∧
    KernelMsg.stream "stdout" ['h'] ∈ processedMessages
      [KernelMsg.stream "stdout" ['h'], KernelMsg.errorMsg [['T', 'B']],
        KernelMsg.statusMsg "idle", KernelMsg.stream "stdout" ['z']] := by
  have h := internal_execute_swallows_kernel_errors
    [KernelMsg.stream "stdout" ['h'], KernelMsg.errorMsg [['T', 'B']],
      KernelMsg.statusMsg "idle", KernelMsg.stream "stdout" ['z']]
    [['T', 'B']] "p" 1 [] none
  have hmem := h.2.2.1 (by decide)
  exact ⟨h.1, hmem.1, hmem.2 ['T', 'B'] (by decide),
    h.2.2.2 ['h'] (by decide)⟩

/-- C8: for every run, the task list the loop executes is never empty, and
when the Plan generator returns an empty (or absent) task list the pipeline
executes exactly one synthesized fallback task whose hypothesis equals the
raw user request. -/
theorem empty_plan_synthesizes_single_task (message processId : String)
    (threadId : Nat) (filePath : Option String)
    (planTasks : Option (List PlanTask)) (genCode : Nat → List Char)
    (taskPrompt : Nat → Option String) (exec : Nat → RawExecutionResult)
    (builtinSummaryOk : Bool) :
    1 ≤ (effectivePlanTasks message planTasks).length ∧
    (planTasks.getD [] = [] →
      effectivePlanTasks message planTasks =
        [{ hypothesis := message
           purpose := "ユーザー要求に直接対応する分析タスク"
           description := "元のユーザー要求をそのまま実行します。"
           chart_type := "auto" }] ∧
      (runAnalysisPipeline message processId threadId filePath planTasks
        genCode taskPrompt exec builtinSummaryOk).taskResults.length = 1) := by
  constructor
  · unfold effectivePlanTasks
    cases htasks : planTasks.getD [] with
    | nil => simp
    | cons t rest => simp [htasks]
  · intro hempty
    have heff : effectivePlanTasks message planTasks =
        [{ hypothesis := message
           purpose := "ユーザー要求に直接対応する分析タスク"
           description := "元のユーザー要求をそのまま実行します。"
           chart_type := "auto" }] := by
      unfold effectivePlanTasks
      rw [hempty]
      rfl
    refine ⟨heff, ?_⟩
    simp [runAnalysisPipeline, heff]

/-- Witness for C8 at a concrete input: a planner returning `some []` for
request `"analyze this data"` yields exactly the single fallback task and a
run with exactly one DataThread. -/
theorem empty_plan_synthesizes_single_task_witness :
    effectivePlanTasks "analyze this data" (some []) =
      [{ hypothesis := "analyze this data"
         purpose := "ユーザー要求に直接対応する分析タスク"
         description := "元のユーザー要求をそのまま実行します。"
         chart_type := "auto" }] ∧
    (runAnalysisPipeline "analyze this data" "s1_1" 1 none (some [])
      (fun _ => []) (fun _ => none) (fun _ => rawOkResult)
      false).taskResults.length = 1 := by
  have h := (empty_plan_synthesizes_single_task "analyze this data" "s1_1" 1
    none (some []) (fun _ => []) (fun _ => none) (fun _ => rawOkResult)
    false).2 rfl
  exact ⟨h.1, h.2⟩

/-- C3 (amended): the pipeline of `_run_analysis_job` never invokes the
Review generator — after the task loop it proceeds directly to the
builtin-analysis check and the report step — and every DataThread it
accumulates still carries no `observation` when the report step runs. -/
theorem pipeline_never_calls_review (message processId : String)
    (threadId : Nat) (filePath : Option String)
    (planTasks : Option (List PlanTask)) (genCode : Nat → List Char)
    (taskPrompt : Nat → Option String) (exec : Nat → RawExecutionResult)
    (builtinSummaryOk : Bool) :
    UseCaseCall.reviewGen ∉ (runAnalysisPipeline message processId threadId
      filePath planTasks genCode taskPrompt exec builtinSummaryOk).calls ∧
    (∀ dt, dt ∈ (runAnalysisPipeline message processId threadId filePath
      planTasks genCode taskPrompt exec builtinSummaryOk).taskResults →
      dt.observation = none) := by
  constructor
  · intro hmem
    simp only [runAnalysisPipeline] at hmem
    rcases List.mem_append.mp hmem with h | h
    · rcases List.mem_append.mp h with h | h
      · rcases List.mem_append.mp h with h | h
        · simp at h
        · obtain ⟨i, _, hi⟩ := List.mem_flatMap.mp h
          simp at hi
      · split at h <;> simp at h
    · split at h <;> simp at h
  · intro dt hdt
    simp only [runAnalysisPipeline, List.mem_map, List.mem_range] at hdt
    obtain ⟨i, _, hconv⟩ := hdt
    rw [← hconv]
    rfl

/-- Witness for C3's amended statement at a concrete completed run: no
review call in the trace and the produced DataThread has no observation. -/
theorem pipeline_never_calls_review_witness :
    UseCaseCall.reviewGen ∉ (runAnalysisPipeline "analyze this data" "s1_1" 1
      none (some [sampleTask])
      (fun _ => []) (fun _ => none) (fun _ => rawOkResult) false).calls ∧
    (convert_to_data_thread rawOkResult "s1_1_task_1" 1 [] none).observation
      = none := by
  have h := pipeline_never_calls_review "analyze this data" "s1_1" 1 none
    (some [sampleTask])
    (fun _ => []) (fun _ => none) (fun _ => rawOkResult) false
  exact ⟨h.1, h.2 (convert_to_data_thread rawOkResult "s1_1_task_1" 1 [] none)
    (by decide)⟩

/-- Counterexample to C3 as stated: in a concrete run whose task loop
completes (one task, successful execution), the pipeline's invocation trace
contains no Review-generator call at all, and the final (only) DataThread
reaches the report step with `observation` absent — the claimed review step
does not exist in `_run_analysis_job`. -/
theorem pipeline_review_step_missing_counterexample :
    UseCaseCall.reviewGen ∉ (runAnalysisPipeline "analyze this data" "s1_1" 1
      none (some [sampleTask])
      (fun _ => []) (fun _ => none) (fun _ => rawOkResult) false).calls ∧
    ((runAnalysisPipeline "analyze this data" "s1_1" 1
      none (some [sampleTask])
      (fun _ => []) (fun _ => none) (fun _ => rawOkResult)
      false).taskResults.map DataThread.observation = [none]) := by
  constructor
  · decide
  · decide

theorem pipelineCalls_aux (n : Nat) (trig used : Bool) :
    (UseCaseCall.builtinAnalysis ∈
      ([UseCaseCall.planGen] ++
        (List.range n).flatMap
          (fun i => [UseCaseCall.codeGen i, UseCaseCall.execCode i]) ++
        (if trig = true then [UseCaseCall.builtinAnalysis] else []) ++
        (if used = true then [UseCaseCall.builtinReport]
          else [UseCaseCall.reportGen])) ↔ trig = true) ∧
    (UseCaseCall.reportGen ∈
      ([UseCaseCall.planGen] ++
        (List.range n).flatMap
          (fun i => [UseCaseCall.codeGen i, UseCaseCall.execCode i]) ++
        (if trig = true then [UseCaseCall.builtinAnalysis] else []) ++
        (if used = true then [UseCaseCall.builtinReport]
          else [UseCaseCall.reportGen])) ↔ used = false) := by
  cases trig <;> cases used <;> simp [List.mem_flatMap]

theorem reportKindIf_eq_builtin (u : Bool) :
    (if u = true then ReportKind.builtin else ReportKind.llm) =
      ReportKind.builtin ↔ u = true := by
  cases u <;> simp

theorem reportKindIf_eq_llm (u : Bool) :
    (if u = true then ReportKind.builtin else ReportKind.llm) =
      ReportKind.llm ↔ u = false := by
  cases u <;> simp

/-- C4 (amended): the builtin fallback analysis is attempted if and only if
at least one task signalled an error (truthy `error`, or truthy `stderr`
containing `"Error"`) and a truthy data-file path was supplied — not only
when every task failed; the builtin fallback report replaces the LLM Report
generator if and only if, additionally, the builtin analysis produced a
summary. -/
theorem builtin_fallback_trigger (message processId : String)
    (threadId : Nat) (filePath : Option String)
    (planTasks : Option (List PlanTask)) (genCode : Nat → List Char)
    (taskPrompt : Nat → Option String) (exec : Nat → RawExecutionResult)
    (builtinSummaryOk : Bool) :
    (UseCaseCall.builtinAnalysis ∈ (runAnalysisPipeline message processId
        threadId filePath planTasks genCode taskPrompt exec
        builtinSummaryOk).calls ↔
      ((runAnalysisPipeline message processId threadId filePath planTasks
        genCode taskPrompt exec builtinSummaryOk).taskResults.any
          signalsError = true ∧ pyTruthyStr filePath = true)) ∧
    ((runAnalysisPipeline message processId threadId filePath planTasks
        genCode taskPrompt exec builtinSummaryOk).reportKind =
        ReportKind.builtin ↔
      ((runAnalysisPipeline message processId threadId filePath planTasks
        genCode taskPrompt exec builtinSummaryOk).taskResults.any
          signalsError = true ∧ pyTruthyStr filePath = true ∧
        builtinSummaryOk = true)) ∧
    (UseCaseCall.reportGen ∈ (runAnalysisPipeline message processId threadId
        filePath planTasks genCode taskPrompt exec builtinSummaryOk).calls ↔
      (runAnalysisPipeline message processId threadId filePath planTasks
        genCode taskPrompt exec builtinSummaryOk).reportKind =
        ReportKind.llm) := by
  have hcalls : (runAnalysisPipeline message processId threadId filePath
      planTasks genCode taskPrompt exec builtinSummaryOk).calls =
      [UseCaseCall.planGen] ++
      (List.range (effectivePlanTasks message planTasks).length).flatMap
        (fun i => [UseCaseCall.codeGen i, UseCaseCall.execCode i]) ++
      (if ((runAnalysisPipeline message processId threadId filePath
          planTasks genCode taskPrompt exec builtinSummaryOk).taskResults.any
            signalsError && pyTruthyStr filePath) = true
        then [UseCaseCall.builtinAnalysis] else []) ++
      (if ((runAnalysisPipeline message processId threadId filePath
          planTasks genCode taskPrompt exec builtinSummaryOk).taskResults.any
            signalsError && pyTruthyStr filePath && builtinSummaryOk) = true
        then [UseCaseCall.builtinReport] else [UseCaseCall.reportGen]) := rfl
  have hkind : (runAnalysisPipeline message processId threadId filePath
      planTasks genCode taskPrompt exec builtinSummaryOk).reportKind =
      (if ((runAnalysisPipeline message processId threadId filePath
          planTasks genCode taskPrompt exec builtinSummaryOk).taskResults.any
            signalsError && pyTruthyStr filePath && builtinSummaryOk) = true
        then ReportKind.builtin else ReportKind.llm) := rfl
  rw [hcalls, hkind]
  have haux := pipelineCalls_aux (effectivePlanTasks message planTasks).length
    ((runAnalysisPipeline message processId threadId filePath planTasks
      genCode taskPrompt exec builtinSummaryOk).taskResults.any signalsError
      && pyTruthyStr filePath)
    ((runAnalysisPipeline message processId threadId filePath planTasks
      genCode taskPrompt exec builtinSummaryOk).taskResults.any signalsError
      && pyTruthyStr filePath && builtinSummaryOk)
  refine ⟨?_, ?_, ?_⟩
  · rw [haux.1, Bool.and_eq_true]
  · rw [reportKindIf_eq_builtin, Bool.and_eq_true, Bool.and_eq_true, and_assoc]
  · rw [haux.2, reportKindIf_eq_llm]

/-- Counterexample to C4 as stated: a concrete two-task run in which the
first task fails and the second succeeds, with a data file supplied, still
runs the builtin analysis and uses the builtin fallback report — the
trigger is "some task failed", not "every task failed", so the normal LLM
Report generator is not used despite a successful task. -/
theorem builtin_runs_despite_partial_success_counterexample :
    UseCaseCall.builtinAnalysis ∈ (runAnalysisPipeline "msg" "p" 1
      (some "data/sales.csv") (some [sampleTask, sampleTask]) (fun _ => [])
      (fun _ => none)
      (fun i => if i = 0 then rawFailingResult else rawOkResult)
      true).calls ∧
    (runAnalysisPipeline "msg" "p" 1 (some "data/sales.csv")
      (some [sampleTask, sampleTask]) (fun _ => []) (fun _ => none)
      (fun i => if i = 0 then rawFailingResult else rawOkResult)
      true).reportKind = ReportKind.builtin ∧
    (runAnalysisPipeline "msg" "p" 1 (some "data/sales.csv")
      (some [sampleTask, sampleTask]) (fun _ => []) (fun _ => none)
      (fun i => if i = 0 then rawFailingResult else rawOkResult)
      true).taskResults.map signalsError = [true, false] := by
  refine ⟨?_, ?_, ?_⟩ <;> decide

/-- C6: `validate_file_path` returns `False` for every symlink and for
every path whose resolved real path lies outside the allow-listed data
directories unless it is a tracked temporary upload (in which case, when
the file exists, it returns `True`), and returns `True` for every existing
non-symlink path whose resolved path lies inside an allowed folder. -/
theorem validate_file_path_allowlist (fs : FileSystem) (p : FsPath) :
    (fs.isSymlink p = true → validate_file_path fs p = false) ∧
    (fs.isSymlink p = false →
      (∀ a ∈ ALLOWED_DATA_FOLDERS,
        fsPathIsWithin (fs.resolve a) (fs.resolve p) = false) →
      fs.isTrackedTempFile (fs.resolve p) = false →
      validate_file_path fs p = false) ∧
    (fs.isSymlink p = false → fs.pathExists (fs.resolve p) = true →
      (∃ a ∈ ALLOWED_DATA_FOLDERS,
        fsPathIsWithin (fs.resolve a) (fs.resolve p) = true) →
      validate_file_path fs p = true) ∧
    (fs.isSymlink p = false → fs.pathExists (fs.resolve p) = true →
      fs.isTrackedTempFile (fs.resolve p) = true →
      validate_file_path fs p = true) := by
  refine ⟨?_, ?_, ?_, ?_⟩
  · intro hs
    simp [validate_file_path, hs]
  · intro hs hout htr
    have hany : ALLOWED_DATA_FOLDERS.any
        (fun a => fsPathIsWithin (fs.resolve a) (fs.resolve p)) = false := by
      rw [List.any_eq_false]
      intro a ha
      simp [hout a ha]
    by_cases hex : fs.pathExists (fs.resolve p) = true
    · simp [validate_file_path, hs, hex, hany, htr]
    · have hex' : fs.pathExists (fs.resolve p) = false := by
        cases h : fs.pathExists (fs.resolve p)
        · rfl
        · exact absurd h hex
      simp [validate_file_path, hs, hex']
  · intro hs hex hin
    have hany : ALLOWED_DATA_FOLDERS.any
        (fun a => fsPathIsWithin (fs.resolve a) (fs.resolve p)) = true := by
      rw [List.any_eq_true]
      obtain ⟨a, ha, hwithin⟩ := hin
      exact ⟨a, ha, hwithin⟩
    simp [validate_file_path, hs, hex, hany]
  · intro hs hex htr
    by_cases hany : ALLOWED_DATA_FOLDERS.any
        (fun a => fsPathIsWithin (fs.resolve a) (fs.resolve p)) = true
    · simp [validate_file_path, hs, hex, hany]
    · have hany' : ALLOWED_DATA_FOLDERS.any
          (fun a => fsPathIsWithin (fs.resolve a) (fs.resolve p)) = false := by
        cases h : ALLOWED_DATA_FOLDERS.any
            (fun a => fsPathIsWithin (fs.resolve a) (fs.resolve p))
        · rfl
        · exact absurd h hany
      simp [validate_file_path, hs, hex, hany', htr]

/-- Witness for C6 at concrete inputs: the traversal
`data/../../etc/passwd` (resolving outside the allowed folders) is
rejected, a path inside the allowed folder is accepted, and a symlink is
rejected. -/
theorem validate_file_path_allowlist_witness :
    validate_file_path sampleFs ["data", "..", "..", "etc", "passwd"]
      = false ∧
    validate_file_path sampleFs ["root", "data", "sales.csv"] = true ∧
    validate_file_path sampleFs ["root", "data", "link.csv"] = false := by
  refine ⟨?_, ?_, ?_⟩
  · exact (validate_file_path_allowlist sampleFs
      ["data", "..", "..", "etc", "passwd"]).2.1 (by decide)
      (by decide) (by decide)
  · exact (validate_file_path_allowlist sampleFs
      ["root", "data", "sales.csv"]).2.2.1 (by decide) (by decide)
      ⟨[".", "data"], by decide, by decide⟩
  · exact (validate_file_path_allowlist sampleFs
      ["root", "data", "link.csv"]).1 (by decide)

end DataAnalysis
